import Mathlib

/-!
# Verification of the KAIROS two-tier betting-market analysis core

A shallow embedding of `src/modules/kairos_analyzer.py` (classes
`PreliminaryAnalyzer` and `KairosAnalyzer`, plus the module-level function
`determine_league_tier`), together with theorems settling the frozen claims
about the specification.

Modelling conventions:
* Python scalar values that can appear in a selection's `odds` slot
  (strings, ints, floats, `None`) are modelled by the inductive type `Val`.
  Python floats are modelled as rationals (`ℚ`); every numeric comparison and
  sum performed by the analyzer on the inputs relevant to the claims is exact
  in binary floating point as well, as they involve only short decimal
  literals.
* Python `str.replace(c, '')` for a single character `c` is removal of every
  occurrence, modelled by `List.filter` on the character list.
* `int(...)` / `float(...)` string coercions are modelled by `pyInt` /
  `pyFloat`; a caught `ValueError` is `none`, mirroring the `try/except`
  blocks that degrade to `None`.  `float(...)` results are `PyFloat` values
  (finite rational, `±inf`, `nan`): exponent notation and the named
  specials parse, and magnitudes past the IEEE double bound overflow to
  infinity.  `int(...)` of an infinite float raises `OverflowError`, which
  `except (ValueError, TypeError)` does not catch; that escaping exception
  is modelled by the `Raises` result type threaded through the deep scorer.
* Python truthiness (`if not x`) is modelled explicitly: `None`, `""`, `0`
  and `0.0` are falsy.
-/

namespace Kairos

/-- A Python scalar value as stored in a selection's `odds` slot. -/
inductive Val where
  | vNone : Val
  | vStr (s : String) : Val
  | vInt (n : Int) : Val
  | vFloat (q : ℚ) : Val
deriving DecidableEq

/-- Python truthiness of a scalar: `None`, `""`, `0`, `0.0` are falsy. -/
def Val.truthy : Val → Bool
  | .vNone => false
  | .vStr s => !s.isEmpty
  | .vInt n => n ≠ 0
  | .vFloat q => q ≠ 0

/-- `isinstance(value, (int, float))` together with `float(value)`:
the numeric content of a value, if it is numeric. -/
def Val.asNum : Val → Option ℚ
  | .vInt n => some (n : ℚ)
  | .vFloat q => some q
  | _ => none

/-- Display of a rational in strings built by the analyzer.  Models Python
number formatting; exact for integers, which is the only case the analyzer
ever feeds back into parsing.  Justification strings built with it are never
compared by any claim. -/
def ratRepr (q : ℚ) : String :=
  if q.den = 1 then toString q.num
  else toString q.num ++ "/" ++ toString q.den

/-- Python `str(value)` for the values reaching `_parse_volume`.  Exact for
strings and ints; for floats it is exact precisely on integral values (the
only float case whose rendering any analyzed behaviour depends on). -/
def pyStr : Val → String
  | .vNone => "None"
  | .vStr s => s
  | .vInt n => toString n
  | .vFloat q => ratRepr q ++ ".0"

/-- `needle` is a prefix of `hay` (character lists). -/
def isPrefixL : List Char → List Char → Bool
  | [], _ => true
  | _ :: _, [] => false
  | a :: as, b :: bs => a = b && isPrefixL as bs

/-- Python substring containment `needle in hay` on character lists. -/
def containsL (hay needle : List Char) : Bool :=
  match hay with
  | [] => needle.isEmpty
  | _ :: t => isPrefixL needle hay || containsL t needle

/-- Python `needle in hay` on strings (case sensitive). -/
def strContains (hay needle : String) : Bool :=
  containsL hay.toList needle.toList

/-- Python `s.lower()` (ASCII case folding), as a character list. -/
def lowerL (s : String) : List Char :=
  s.toList.map Char.toLower

/-- Decimal digits to a natural number. -/
def digitsToNat (cs : List Char) : Nat :=
  cs.foldl (fun a c => a * 10 + (c.toNat - 48)) 0

/-- Unsigned body of Python `int(...)`: one or more decimal digits. -/
def intBody (cs : List Char) : Option Nat :=
  if cs.isEmpty then none
  else if cs.all Char.isDigit then some (digitsToNat cs)
  else none

/-- Python `int(s)` on a character list: optional sign, then digits;
`none` models the `ValueError` branch. -/
def pyInt (cs : List Char) : Option Int :=
  match cs with
  | [] => none
  | c :: r =>
    if c = '+' then (intBody r).map Int.ofNat
    else if c = '-' then (intBody r).map (fun n => -(n : Int))
    else (intBody (c :: r)).map Int.ofNat

/-- A Python float as produced by `float(...)`: a finite value (modelled as
an exact rational; binary rounding of finite values is not modelled, which
is observationally irrelevant to the claims), an infinity, or a NaN. -/
inductive PyFloat where
  | finite (q : ℚ) : PyFloat
  | inf : PyFloat
  | negInf : PyFloat
  | nan : PyFloat
deriving DecidableEq

/-- Negation of a Python float. -/
def PyFloat.neg : PyFloat → PyFloat
  | .finite q => .finite (-q)
  | .inf => .negInf
  | .negInf => .inf
  | .nan => .nan

/-- `abs` of a Python float. -/
def PyFloat.abs : PyFloat → PyFloat
  | .finite q => .finite |q|
  | .inf => .inf
  | .negInf => .inf
  | .nan => .nan

/-- Python truthiness of a float: only `0.0` is falsy (infinities and NaN
are truthy). -/
def PyFloat.truthy : PyFloat → Bool
  | .finite q => q ≠ 0
  | _ => true

/-- IEEE comparison `x >= t` against a rational threshold: infinities
compare as expected and every comparison with NaN is false. -/
def PyFloat.geQ : PyFloat → ℚ → Bool
  | .finite q, t => t ≤ q
  | .inf, _ => true
  | .negInf, _ => false
  | .nan, _ => false

/-- Display of a Python float in strings built by the analyzer
(display-only; no claim compares a string built with it). -/
def pyFloatRepr : PyFloat → String
  | .finite q => ratRepr q
  | .inf => "inf"
  | .negInf => "-inf"
  | .nan => "nan"

/-- The smallest magnitude at which IEEE-754 double rounding overflows to
infinity: the midpoint `2^1024 - 2^970` above the largest finite double.
`float("1e400")` overflows this bound and yields `inf` in Python. -/
def doubleOverflowBound : ℚ :=
  2 ^ 1024 - 2 ^ 970

/-- Exponent suffix of a float literal: empty, or `e`/`E`, an optional
sign, and at least one digit, scaling the mantissa by a power of ten. -/
def expApply (mant : ℚ) (cs : List Char) : Option ℚ :=
  match cs with
  | [] => some mant
  | e :: r =>
    if e = 'e' ∨ e = 'E' then
      match r with
      | [] => none
      | c :: d =>
        if c = '+' then (intBody d).map (fun k => mant * 10 ^ k)
        else if c = '-' then (intBody d).map (fun k => mant / 10 ^ k)
        else (intBody (c :: d)).map (fun k => mant * 10 ^ k)
    else none

/-- Unsigned decimal form of Python `float(...)`: digits with at most one
dot (at least one digit overall) and an optional exponent part; the exact
rational value, before overflow handling. -/
def floatDecimal (cs : List Char) : Option ℚ :=
  let ip := cs.takeWhile Char.isDigit
  let rest := cs.drop ip.length
  match rest with
  | '.' :: r2 =>
    let fp := r2.takeWhile Char.isDigit
    let rest2 := r2.drop fp.length
    if ip.isEmpty && fp.isEmpty then none
    else expApply ((digitsToNat ip : ℚ) + (digitsToNat fp : ℚ) / (10 : ℚ) ^ fp.length) rest2
  | _ =>
    if ip.isEmpty then none
    else expApply ((digitsToNat ip : ℚ)) rest

/-- Unsigned body of Python `float(...)`: the decimal form (overflowing
magnitudes round to infinity, as `strtod` does), or the case-insensitive
specials `inf`/`infinity`/`nan`.  The two branches accept disjoint strings
(the decimal form requires a digit first, the specials contain none), so
trying the decimal form first matches Python's single grammar. -/
def floatBody (cs : List Char) : Option PyFloat :=
  match floatDecimal cs with
  | some q => some (if doubleOverflowBound ≤ q then PyFloat.inf else .finite q)
  | none =>
    let low := cs.map Char.toLower
    if low = "inf".toList ∨ low = "infinity".toList then some .inf
    else if low = "nan".toList then some .nan
    else none

/-- Python `float(s)`: optional sign then `floatBody`; `none` models the
`ValueError` branch. -/
def pyFloat (cs : List Char) : Option PyFloat :=
  match cs with
  | [] => none
  | c :: r =>
    if c = '+' then floatBody r
    else if c = '-' then (floatBody r).map PyFloat.neg
    else floatBody (c :: r)

/-- Python `int(q)` on a finite float: truncation toward zero. -/
def ratTruncate (q : ℚ) : Int :=
  q.num.tdiv (q.den : Int)

/-- Result of a Python computation that can let an exception escape: the
only uncaught exception in the analysis core is the `OverflowError` that
`int(float(...))` raises on an infinite float, which
`except (ValueError, TypeError)` in `KairosAnalyzer._parse_volume` does not
catch. -/
inductive Raises (α : Type) where
  | ok (a : α) : Raises α
  | overflow : Raises α
deriving DecidableEq

/-- Map over a non-raising result. -/
def Raises.map {α β : Type} (f : α → β) : Raises α → Raises β
  | .ok a => .ok (f a)
  | .overflow => .overflow

/-- A raw selection row `{name, odds}`; the `odds` key historically holds any
scalar value, not only numeric odds. -/
structure Selection where
  name : String
  odds : Val
deriving DecidableEq

/-- A raw market record as produced by the scraper: `market_name`,
`selections` and the optional `links['betfair_url']`. -/
structure Market where
  market_name : String
  selections : List Selection
  betfair_url : Option String := none
deriving DecidableEq

/-- The derived, ephemeral structure built by `_extract_market_data`:
the dict with keys type/volume/odds/change/percent/time/score, each
initialised to `None`.  The `odds` entry is only ever set to a float. -/
structure ParsedMarketData where
  type : Val := .vNone
  volume : Val := .vNone
  odds : Option ℚ := none
  change : Val := .vNone
  percent : Val := .vNone
  time : Val := .vNone
  score : Val := .vNone
deriving DecidableEq

namespace PreliminaryAnalyzer

/-- One step of `PreliminaryAnalyzer._extract_market_data`: the if/elif chain
on the lowered selection name. -/
def extract_step (d : ParsedMarketData) (sel : Selection) : ParsedMarketData :=
  let name := lowerL sel.name
  let value := sel.odds
  if containsL name "type".toList then { d with type := value }
  else if containsL name "summ".toList then { d with volume := value }
  else if containsL name "odds".toList && value.asNum.isSome then
    { d with odds := value.asNum }
  else if containsL name "change".toList then { d with change := value }
  else if containsL name "percent".toList then { d with percent := value }
  else if containsL name "time".toList then { d with time := value }
  else if containsL name "score".toList then { d with score := value }
  else d

/-- `PreliminaryAnalyzer._extract_market_data`. -/
def extract_market_data (selections : List Selection) : ParsedMarketData :=
  selections.foldl extract_step {}

/-- `PreliminaryAnalyzer._parse_volume`: strip `€`, `,`, `.` and coerce via
`int(...)`; `None` on falsy input or parse failure. -/
def parse_volume (v : Val) : Option Int :=
  if !v.truthy then none
  else
    pyInt ((((pyStr v).toList.filter (· ≠ '€')).filter (· ≠ ',')).filter (· ≠ '.'))

end PreliminaryAnalyzer

namespace KairosAnalyzer

/-- One step of `KairosAnalyzer._extract_market_data` (textually identical to
the preliminary analyzer's copy in the source). -/
def extract_step (d : ParsedMarketData) (sel : Selection) : ParsedMarketData :=
  let name := lowerL sel.name
  let value := sel.odds
  if containsL name "type".toList then { d with type := value }
  else if containsL name "summ".toList then { d with volume := value }
  else if containsL name "odds".toList && value.asNum.isSome then
    { d with odds := value.asNum }
  else if containsL name "change".toList then { d with change := value }
  else if containsL name "percent".toList then { d with percent := value }
  else if containsL name "time".toList then { d with time := value }
  else if containsL name "score".toList then { d with score := value }
  else d

/-- `KairosAnalyzer._extract_market_data`. -/
def extract_market_data (selections : List Selection) : ParsedMarketData :=
  selections.foldl extract_step {}

/-- `KairosAnalyzer._parse_volume`: strip `€`, spaces and `,`, coerce via
`int(float(...))` (truncation toward zero).  Falsy input and a caught
`ValueError` — from `float(...)` on an unparsable string or from `int(...)`
on NaN — yield `None`; `int(...)` on an infinite float raises
`OverflowError`, which the `except (ValueError, TypeError)` clause does not
catch, so it escapes the method. -/
def parse_volume (v : Val) : Raises (Option Int) :=
  if !v.truthy then .ok none
  else
    match pyFloat ((((pyStr v).toList.filter (· ≠ '€')).filter (· ≠ ' ')).filter (· ≠ ',')) with
    | none => .ok none
    | some (.finite q) => .ok (some (ratTruncate q))
    | some .nan => .ok none
    | some .inf => .overflow
    | some .negInf => .overflow

end KairosAnalyzer

/-- `BettingOpportunity` dataclass. -/
structure BettingOpportunity where
  found : Bool
  market : String
  selection : String
  justification : String
  confidence_level : String
  betfair_url : Option String := none
  volume : Option String := none
  odds : Option ℚ := none
deriving DecidableEq

/-- `MarketSignal` dataclass. -/
structure MarketSignal where
  signal_type : String
  strength : ℚ
  description : String
  market_name : String
  volume : Option Int := none
  odds_change : Option PyFloat := none
  time_detected : Option String := none
deriving DecidableEq

/-- The two keys of a tier entry of `ANALYSIS_RULES_BY_TIER` that the
constructor reads with `dict.get` (either may be missing). -/
structure TierConfig where
  min_volume : Option ℚ := none
  min_odds_drop_percent : Option ℚ := none
deriving DecidableEq

/-- `self.config['money_way']`. -/
structure MoneyWayConfig where
  min_volume : ℚ
  high_volume : ℚ
  very_high_volume : ℚ
deriving DecidableEq

/-- `self.config['drop_odds']`. -/
structure DropOddsConfig where
  min_drop_percent : ℚ
  significant_drop : ℚ
  major_drop : ℚ
deriving DecidableEq

/-- `self.config['sharp_bet']`. -/
structure SharpBetConfig where
  min_increase_percent : ℚ
  significant_increase : ℚ
  major_increase : ℚ
deriving DecidableEq

/-- `self.config` of `PreliminaryAnalyzer`. -/
structure PreConfig where
  money_way : MoneyWayConfig
  drop_odds : DropOddsConfig
  sharp_bet : SharpBetConfig
deriving DecidableEq

namespace PreliminaryAnalyzer

/-- Effective minimum volume chosen by `PreliminaryAnalyzer.__init__`
(`tier_config.get('min_volume', 5000)`, or `5000` without a tier config;
`none` also models an empty, hence falsy, tier-config dict). -/
def effMinVolume : Option TierConfig → ℚ
  | some tc => tc.min_volume.getD 5000
  | none => 5000

/-- Effective minimum drop percentage chosen by `PreliminaryAnalyzer.__init__`
(`abs(tier_config.get('min_odds_drop_percent', -0.05)) * 100`, or `5`). -/
def effMinDrop : Option TierConfig → ℚ
  | some tc => |tc.min_odds_drop_percent.getD (-0.05)| * 100
  | none => 5

/-- `PreliminaryAnalyzer.__init__`: derives the threshold table from the
optional tier configuration. -/
def mkConfig (tier_config : Option TierConfig) : PreConfig :=
  let min_volume := effMinVolume tier_config
  let min_drop_percent := effMinDrop tier_config
  { money_way :=
      { min_volume := min_volume
        high_volume := min_volume * 3
        very_high_volume := min_volume * 6 }
    drop_odds :=
      { min_drop_percent := min_drop_percent
        significant_drop := min_drop_percent * 2
        major_drop := min_drop_percent * 4 }
    sharp_bet :=
      { min_increase_percent := 15
        significant_increase := 30
        major_increase := 50 } }

/-- `PreliminaryAnalyzer._detect_money_way`.  `now` is the formatted
`datetime.now()` timestamp, threaded in as a parameter. -/
def detect_money_way (cfg : PreConfig) (now market_name : String)
    (data : ParsedMarketData) : Option MarketSignal :=
  match parse_volume data.volume with
  | none => none
  | some volume =>
    if volume = 0 then none
    else
      let c := cfg.money_way
      if c.very_high_volume ≤ (volume : ℚ) then
        some { signal_type := "money_way", strength := 1,
               description := "Volume muito alto: " ++ toString volume ++ "€ (>" ++
                 ratRepr c.very_high_volume ++ "€)",
               market_name := market_name, volume := some volume,
               time_detected := some now }
      else if c.high_volume ≤ (volume : ℚ) then
        some { signal_type := "money_way", strength := 0.8,
               description := "Volume alto: " ++ toString volume ++ "€ (>" ++
                 ratRepr c.high_volume ++ "€)",
               market_name := market_name, volume := some volume,
               time_detected := some now }
      else if c.min_volume ≤ (volume : ℚ) then
        some { signal_type := "money_way", strength := 0.6,
               description := "Volume significativo: " ++ toString volume ++ "€ (>" ++
                 ratRepr c.min_volume ++ "€)",
               market_name := market_name, volume := some volume,
               time_detected := some now }
      else none

/-- The drop percentage extracted inside `_detect_drop_odds`: requires a
truthy string containing both `%` and `-`, strips those characters, coerces
with `float(...)`, takes the absolute value; any exception is swallowed by
the bare `except: pass`, leaving `None`. -/
def dropPercentOf : Val → Option PyFloat
  | .vStr s =>
    if !s.isEmpty then
      if s.toList.contains '%' && s.toList.contains '-' then
        (pyFloat ((s.toList.filter (· ≠ '%')).filter (· ≠ '-'))).map PyFloat.abs
      else none
    else none
  | _ => none

/-- `PreliminaryAnalyzer._detect_drop_odds`. -/
def detect_drop_odds (cfg : PreConfig) (now market_name : String)
    (data : ParsedMarketData) : Option MarketSignal :=
  if !data.change.truthy && !data.percent.truthy then none
  else
    match dropPercentOf data.percent with
    | none => none
    | some dp =>
      if !dp.truthy then none
      else
        let c := cfg.drop_odds
        if dp.geQ c.major_drop then
          some { signal_type := "drop_odds", strength := 1,
                 description := "Queda major nas odds: -" ++ pyFloatRepr dp ++ "% (>" ++
                   ratRepr c.major_drop ++ "%)",
                 market_name := market_name, odds_change := some dp.neg,
                 time_detected := some now }
        else if dp.geQ c.significant_drop then
          some { signal_type := "drop_odds", strength := 0.8,
                 description := "Queda significativa: -" ++ pyFloatRepr dp ++ "% (>" ++
                   ratRepr c.significant_drop ++ "%)",
                 market_name := market_name, odds_change := some dp.neg,
                 time_detected := some now }
        else if dp.geQ c.min_drop_percent then
          some { signal_type := "drop_odds", strength := 0.6,
                 description := "Queda detectada: -" ++ pyFloatRepr dp ++ "% (>" ++
                   ratRepr c.min_drop_percent ++ "%)",
                 market_name := market_name, odds_change := some dp.neg,
                 time_detected := some now }
        else none

/-- `PreliminaryAnalyzer._detect_sharp_bet`.  The method reads
`self.config['sharp_bet']` but never uses it; the fixed 20000/10000 volume
gates are inlined in the source. -/
def detect_sharp_bet (_cfg : PreConfig) (now market_name : String)
    (data : ParsedMarketData) : Option MarketSignal :=
  match parse_volume data.volume with
  | none => none
  | some volume =>
    if volume = 0 || data.type ≠ Val.vStr "live" then none
    else if 20000 ≤ volume then
      some { signal_type := "sharp_bet", strength := 0.9,
             description := "Possível sharp bet: " ++ toString volume ++
               "€ em mercado ao vivo",
             market_name := market_name, volume := some volume,
             time_detected := some now }
    else if 10000 ≤ volume then
      some { signal_type := "sharp_bet", strength := 0.7,
             description := "Movimento suspeito: " ++ toString volume ++
               "€ em mercado ao vivo",
             market_name := market_name, volume := some volume,
             time_detected := some now }
    else none

/-- `PreliminaryAnalyzer._analyze_market_signals`. -/
def analyze_market_signals (cfg : PreConfig) (now : String) (market : Market) :
    List MarketSignal :=
  let data := extract_market_data market.selections
  ([detect_money_way cfg now market.market_name data,
    detect_drop_odds cfg now market.market_name data,
    detect_sharp_bet cfg now market.market_name data]).filterMap id

/-- `PreliminaryAnalyzer.analyze_markets_preliminary`: collect the per-market
signals and keep only those with strength at least the 0.6 activation floor. -/
def analyze_markets_preliminary (cfg : PreConfig) (now : String)
    (market_data : List Market) : List MarketSignal :=
  (market_data.foldl (fun acc m => acc ++ analyze_market_signals cfg now m) []).filter
    (fun s => 0.6 ≤ s.strength)

end PreliminaryAnalyzer

namespace KairosAnalyzer

/-- The shared tail of the four scoring rules:
`if confidence_score >= floor: return (opportunity, confidence_score)`,
otherwise no candidate. -/
def clearFloor (floor score : ℚ) (o : BettingOpportunity) :
    Option (BettingOpportunity × ℚ) :=
  if floor ≤ score then some (o, score) else none

/-- `KairosAnalyzer._get_confidence_level` with the fixed
`confidence_thresholds` table set in `__init__` (alto 0.8, medio 0.6). -/
def get_confidence_level (score : ℚ) : String :=
  if 0.8 ≤ score then "Alto"
  else if 0.6 ≤ score then "Médio"
  else "Baixo"

/-- Match of the regex `(\d+\.\d+)` at the head of a character list:
one or more digits, a dot, one or more digits.  Maximal-munch `takeWhile`
agrees with the regex here because backtracking a shorter digit run can
never expose the required literal dot. -/
def goalLineAt (cs : List Char) : Option String :=
  let d1 := cs.takeWhile Char.isDigit
  if d1.isEmpty then none
  else
    match cs.drop d1.length with
    | '.' :: rest =>
      let d2 := rest.takeWhile Char.isDigit
      if d2.isEmpty then none else some (String.mk (d1 ++ '.' :: d2))
    | _ => none

/-- Leftmost-match scan for `re.search(r'(\d+\.\d+)', ...)`. -/
def goalLineScan : List Char → Option String
  | [] => none
  | c :: rest =>
    match goalLineAt (c :: rest) with
    | some s => some s
    | none => goalLineScan rest

/-- `KairosAnalyzer._extract_goal_line`. -/
def extract_goal_line (market_name : String) : Option String :=
  goalLineScan market_name.toList

/-- `KairosAnalyzer._analyze_match_odds`. -/
def analyze_match_odds (market_name : String) (data : ParsedMarketData)
    (links : Option String) : Raises (Option (BettingOpportunity × ℚ)) :=
  match parse_volume data.volume with
  | .overflow => .overflow
  | .ok vol? => .ok <|
    match vol?, data.odds with
    | some volume, some odds =>
      if volume = 0 || odds = 0 then none
      else
        let acc1 : ℚ × List String :=
          if 50000 < volume then
            (0.3, ["Alto volume de " ++ toString volume ++ "€ indica forte interesse"])
          else if 20000 < volume then
            (0.2, ["Volume moderado de " ++ toString volume ++ "€"])
          else (0, [])
        let acc2 : ℚ × List String :=
          if 1.5 ≤ odds ∧ odds ≤ 2.5 then
            (acc1.1 + 0.3, acc1.2 ++ ["Odds de " ++ ratRepr odds ++ " em range de valor"])
          else acc1
        let acc3 : ℚ × List String :=
          if data.type = Val.vStr "live" then
            (acc2.1 + 0.2, acc2.2 ++ ["Mercado ao vivo com potencial de movimento"])
          else acc2
        clearFloor 0.6 acc3.1
          { found := true, market := market_name,
            selection := "Favorito identificado",
            justification := "Match Odds: " ++ String.intercalate ". " acc3.2 ++ ".",
            confidence_level := get_confidence_level acc3.1,
            betfair_url := links,
            volume := if volume ≠ 0 then some (toString volume ++ "€") else none,
            odds := some odds }
    | _, _ => none

/-- `KairosAnalyzer._analyze_over_under`. -/
def analyze_over_under (market_name : String) (data : ParsedMarketData)
    (links : Option String) : Raises (Option (BettingOpportunity × ℚ)) :=
  match parse_volume data.volume with
  | .overflow => .overflow
  | .ok vol? => .ok <|
    match vol?, data.odds with
    | some volume, some odds =>
      if volume = 0 || odds = 0 then none
      else
        let goal_line := extract_goal_line market_name
        let acc1 : ℚ × List String :=
          if 30000 < volume then
            (0.25, ["Volume expressivo de " ++ toString volume ++ "€"])
          else (0, [])
        let acc2 : ℚ × List String :=
          if 1.8 ≤ odds ∧ odds ≤ 2.2 then
            (acc1.1 + 0.35, acc1.2 ++ ["Odds equilibradas de " ++ ratRepr odds])
          else acc1
        let acc3 : ℚ × List String :=
          if goal_line = some "2.5" ∨ goal_line = some "1.5" then
            (acc2.1 + 0.2, acc2.2 ++ ["Linha " ++ goal_line.getD "None" ++ " com boa liquidez"])
          else acc2
        let acc4 : ℚ × List String :=
          if data.type = Val.vStr "live" then
            (acc3.1 + 0.15, acc3.2 ++ ["Dinâmica ao vivo favorável"])
          else acc3
        clearFloor 0.6 acc4.1
          { found := true, market := market_name,
            selection :=
              match goal_line with
              | some g => if g = "" then "Over" else "Over " ++ g
              | none => "Over",
            justification := "Over/Under: " ++ String.intercalate ". " acc4.2 ++ ".",
            confidence_level := get_confidence_level acc4.1,
            betfair_url := links,
            volume := if volume ≠ 0 then some (toString volume ++ "€") else none,
            odds := some odds }
    | _, _ => none

/-- `KairosAnalyzer._analyze_btts`. -/
def analyze_btts (market_name : String) (data : ParsedMarketData)
    (links : Option String) : Raises (Option (BettingOpportunity × ℚ)) :=
  match parse_volume data.volume with
  | .overflow => .overflow
  | .ok vol? => .ok <|
    match vol?, data.odds with
    | some volume, some odds =>
      if volume = 0 || odds = 0 then none
      else
        let acc1 : ℚ × List String :=
          if 15000 < volume then
            (0.3, ["Volume de " ++ toString volume ++ "€ no BTTS"])
          else (0, [])
        let acc2 : ℚ × List String :=
          if 1.6 ≤ odds ∧ odds ≤ 2.4 then
            (acc1.1 + 0.4, acc1.2 ++ ["Odds atrativas de " ++ ratRepr odds])
          else acc1
        clearFloor 0.5 acc2.1
          { found := true, market := market_name,
            selection := if odds < 2 then "Yes" else "No",
            justification := "BTTS: " ++ String.intercalate ". " acc2.2 ++ ".",
            confidence_level := get_confidence_level acc2.1,
            betfair_url := links,
            volume := if volume ≠ 0 then some (toString volume ++ "€") else none,
            odds := some odds }
    | _, _ => none

/-- `KairosAnalyzer._analyze_half_markets`. -/
def analyze_half_markets (market_name : String) (data : ParsedMarketData)
    (links : Option String) : Raises (Option (BettingOpportunity × ℚ)) :=
  match parse_volume data.volume with
  | .overflow => .overflow
  | .ok vol? => .ok <|
    match vol?, data.odds with
    | some volume, some odds =>
      if volume = 0 || odds = 0 || volume < 10000 then none
      else
        let acc1 : ℚ × List String :=
          if 20000 < volume then
            (0.25, ["Volume HT de " ++ toString volume ++ "€"])
          else (0, [])
        let acc2 : ℚ × List String :=
          if 1.5 ≤ odds ∧ odds ≤ 3 then
            (acc1.1 + 0.3, acc1.2 ++ ["Odds HT de " ++ ratRepr odds])
          else acc1
        clearFloor 0.4 acc2.1
          { found := true, market := market_name,
            selection := "Primeiro Tempo",
            justification := "Half Time: " ++ String.intercalate ". " acc2.2 ++ ".",
            confidence_level := get_confidence_level acc2.1,
            betfair_url := links,
            volume := if volume ≠ 0 then some (toString volume ++ "€") else none,
            odds := some odds }
    | _, _ => none

/-- `KairosAnalyzer._analyze_single_market`: extract, then dispatch on
market-name substrings in source order.  (The source's
`if not market_data: return None` guard can never fire: the extracted dict
always has its seven keys, hence is truthy.) -/
def analyze_single_market (market : Market) : Raises (Option (BettingOpportunity × ℚ)) :=
  let data := extract_market_data market.selections
  if strContains market.market_name "Match Odds" then
    analyze_match_odds market.market_name data market.betfair_url
  else if strContains market.market_name "Over/Under" then
    analyze_over_under market.market_name data market.betfair_url
  else if strContains market.market_name "Both teams to Score" then
    analyze_btts market.market_name data market.betfair_url
  else if strContains market.market_name "Half" then
    analyze_half_markets market.market_name data market.betfair_url
  else .ok none

/-- The per-market candidate list accumulated by the `analyze_markets`
loop: markets yielding no candidate are skipped, and an exception escaping
`_analyze_single_market` aborts the loop and propagates. -/
def candidates : List Market → Raises (List (BettingOpportunity × ℚ))
  | [] => .ok []
  | m :: rest =>
    match analyze_single_market m with
    | .overflow => .overflow
    | .ok none => candidates rest
    | .ok (some p) =>
      match candidates rest with
      | .overflow => .overflow
      | .ok l => .ok (p :: l)

/-- Python `max(opportunities, key=lambda x: x[1])`: left fold that replaces
the current best only on a strictly greater key, so the first-seen maximum
wins ties. -/
def selectBest (hd : BettingOpportunity × ℚ) (tl : List (BettingOpportunity × ℚ)) :
    BettingOpportunity × ℚ :=
  tl.foldl (fun b x => if b.2 < x.2 then x else b) hd

/-- The `found=False` sentinel returned for an empty market list. -/
def noDataOpportunity : BettingOpportunity :=
  { found := false, market := "N/A", selection := "N/A",
    justification := "Nenhum dado de mercado disponível para análise.",
    confidence_level := "Baixo" }

/-- The `found=False` sentinel returned when no rule clears its floor. -/
def noOpportunityFound : BettingOpportunity :=
  { found := false, market := "N/A", selection := "N/A",
    justification := "Após análise completa dos mercados disponíveis, não foram identificadas oportunidades claras de valor no momento atual.",
    confidence_level := "Baixo" }

/-- The `found=False` sentinel returned by the two-tier pipeline when the
preliminary stage detects no signal. -/
def noSignalsOpportunity : BettingOpportunity :=
  { found := false, market := "N/A", selection := "N/A",
    justification := "Análise preliminar não detectou sinais significativos nos mercados disponíveis.",
    confidence_level := "Baixo" }

/-- `KairosAnalyzer.analyze_markets` (the deep scorer's `score_all`).  An
`OverflowError` escaping a per-market rule propagates out of the method. -/
def analyze_markets (market_data : List Market) : Raises BettingOpportunity :=
  if market_data.isEmpty then .ok noDataOpportunity
  else
    match candidates market_data with
    | .overflow => .overflow
    | .ok [] => .ok noOpportunityFound
    | .ok (hd :: tl) => .ok (selectBest hd tl).1

/-- `KairosAnalyzer._filter_markets_with_signals`. -/
def filter_markets_with_signals (market_data : List Market)
    (signals : List MarketSignal) : List Market :=
  market_data.filter (fun m => signals.any (fun s => s.market_name = m.market_name))

/-- `KairosAnalyzer.analyze_markets_two_tier`.  The deep result is wrapped
in `Option` because the method's signature advertises
`Optional[BettingOpportunity]`; both return statements in fact build an
object, but an `OverflowError` escaping the deep stage propagates out of
the method instead of returning. -/
def analyze_markets_two_tier (now : String) (market_data : List Market) :
    Raises (List MarketSignal × Option BettingOpportunity) :=
  let signals :=
    PreliminaryAnalyzer.analyze_markets_preliminary
      (PreliminaryAnalyzer.mkConfig none) now market_data
  if signals.isEmpty then .ok ([], some noSignalsOpportunity)
  else
    match analyze_markets (filter_markets_with_signals market_data signals) with
    | .overflow => .overflow
    | .ok o => .ok (signals, some o)

end KairosAnalyzer

/-- Static tier pattern lists.  `LEAGUE_TIERS` itself lives in configuration
that is not part of the analysis source; the classifier is parametrised over
the two lists it scans. -/
structure LeagueTiers where
  tier1 : List String
  tier2 : List String

/-- `determine_league_tier`: falsy (empty) names default to tier3; otherwise
case-insensitive substring scan of the full tier1 list, then tier2, default
tier3. -/
def determine_league_tier (tiers : LeagueTiers) (league_name : String) : String :=
  if league_name = "" then "tier3"
  else if tiers.tier1.any (fun p => containsL (lowerL league_name) (lowerL p)) then "tier1"
  else if tiers.tier2.any (fun p => containsL (lowerL league_name) (lowerL p)) then "tier2"
  else "tier3"

/-! ### Helper lemmas -/

/-- Destructuring a successful `intBody` parse. -/
theorem intBody_eq_some {r : List Char} {k : Nat} (h : intBody r = some k) :
    r ≠ [] ∧ r.all Char.isDigit = true ∧ k = digitsToNat r := by
  unfold intBody at h
  split_ifs at h with h1 h2
  · refine ⟨by simpa [List.isEmpty_iff] using h1, h2, ?_⟩
    simpa [eq_comm] using h

/-- On a nonempty all-digit character list the decimal float grammar yields
exactly the digit value (no dot, no exponent present). -/
theorem floatDecimal_digits (r : List Char) (hne : r ≠ [])
    (hd : r.all Char.isDigit = true) :
    floatDecimal r = some ((digitsToNat r : ℚ)) := by
  have htw : r.takeWhile Char.isDigit = r :=
    List.takeWhile_eq_self_iff.mpr (by simpa [List.all_eq_true] using hd)
  simp only [floatDecimal, htw, List.drop_length, expApply]
  cases r with
  | nil => exact absurd rfl hne
  | cons a l => rfl

/-- Below the overflow bound, a digit string parses under the float grammar
to the finite digit value. -/
theorem floatBody_digits (r : List Char) (hne : r ≠ [])
    (hd : r.all Char.isDigit = true)
    (hb : ((digitsToNat r : ℚ)) < doubleOverflowBound) :
    floatBody r = some (PyFloat.finite ((digitsToNat r : ℚ))) := by
  simp only [floatBody, floatDecimal_digits r hne hd]
  rw [if_neg (not_le.mpr hb)]

/-- Truncation of an integral rational. -/
theorem ratTruncate_intCast (n : Int) : ratTruncate ((n : ℚ)) = n := by
  simp [ratTruncate]

/-- A successful `intBody` parse below the overflow bound yields the same
finite value under the float grammar. -/
theorem floatBody_of_intBody (r : List Char) (k : Nat) (hik : intBody r = some k)
    (hbk : ((k : ℚ)) < doubleOverflowBound) :
    floatBody r = some (PyFloat.finite ((k : ℚ))) := by
  obtain ⟨hne, hdig, hkval⟩ := intBody_eq_some hik
  subst hkval
  exact floatBody_digits r hne hdig hbk

/-- If `int(s)` succeeds with a value below the double overflow bound, then
`float(s)` yields the same value as a finite float. -/
theorem pyFloat_of_pyInt (c : List Char) (n : Int)
    (hn : pyInt c = some n) (hb : |(n : ℚ)| < doubleOverflowBound) :
    pyFloat c = some (PyFloat.finite ((n : ℚ))) := by
  rcases c with _ | ⟨ch, r⟩
  · exact absurd hn (by simp [pyInt])
  · simp only [pyInt] at hn
    simp only [pyFloat]
    split_ifs at hn ⊢ with h1 h2
    · rcases hik : intBody r with _ | k <;> rw [hik] at hn
      · exact absurd hn (by simp)
      · simp only [Option.map_some', Option.some.injEq] at hn
        subst hn
        have hbk : ((k : ℚ)) < doubleOverflowBound := by
          have := hb
          push_cast at this
          simpa [abs_of_nonneg (by positivity : (0 : ℚ) ≤ (k : ℚ))] using this
        rw [floatBody_of_intBody r k hik hbk]
        norm_cast
    · rcases hik : intBody r with _ | k <;> rw [hik] at hn
      · exact absurd hn (by simp)
      · simp at hn
        subst hn
        have hbk : ((k : ℚ)) < doubleOverflowBound := by
          have := hb
          push_cast at this
          simpa [abs_of_nonneg (by positivity : (0 : ℚ) ≤ (k : ℚ))] using this
        rw [floatBody_of_intBody r k hik hbk]
        simp [PyFloat.neg]
    · rcases hik : intBody (ch :: r) with _ | k <;> rw [hik] at hn
      · exact absurd hn (by simp)
      · simp only [Option.map_some', Option.some.injEq] at hn
        subst hn
        have hbk : ((k : ℚ)) < doubleOverflowBound := by
          have := hb
          push_cast at this
          simpa [abs_of_nonneg (by positivity : (0 : ℚ) ≤ (k : ℚ))] using this
        rw [floatBody_of_intBody (ch :: r) k hik hbk]
        norm_cast

/-- Full evaluation of the deep volume parser once the cleaned character
list and its `float` parse are known. -/
theorem parse_volume_eval (v : Val) (c : List Char) (x : PyFloat)
    (ht : v.truthy = true)
    (hc : (((pyStr v).toList.filter (· ≠ '€')).filter (· ≠ ' ')).filter (· ≠ ',') = c)
    (hx : pyFloat c = some x) :
    KairosAnalyzer.parse_volume v =
      (match x with
       | .finite q => Raises.ok (some (ratTruncate q))
       | .nan => Raises.ok none
       | .inf => Raises.overflow
       | .negInf => Raises.overflow) := by
  unfold KairosAnalyzer.parse_volume
  rw [if_neg (by simp [ht]), hc]
  simp only [hx]
  cases x <;> rfl

/-- The deep volume parser on a cleaned plain digit string below the
overflow bound returns the integer value. -/
theorem parse_volume_digits (v : Val) (c : List Char) (n : Int)
    (ht : v.truthy = true)
    (hc : (((pyStr v).toList.filter (· ≠ '€')).filter (· ≠ ' ')).filter (· ≠ ',') = c)
    (hn : pyInt c = some n) (hb : |(n : ℚ)| < doubleOverflowBound) :
    KairosAnalyzer.parse_volume v = Raises.ok (some n) := by
  have h := parse_volume_eval v c (PyFloat.finite ((n : ℚ))) ht hc
    (pyFloat_of_pyInt c n hn hb)
  simpa [ratTruncate_intCast] using h

/-- The fold inside `selectBest` computes `List.argmax Prod.snd`. -/
theorem foldl_argAux_eq_selectBest (tl : List (BettingOpportunity × ℚ)) :
    ∀ hd, tl.foldl (List.argAux fun b c => Prod.snd c < Prod.snd b) (some hd) =
      some (KairosAnalyzer.selectBest hd tl) := by
  induction tl with
  | nil => intro hd; rfl
  | cons x t ih =>
    intro hd
    have hstep : List.argAux (fun b c => Prod.snd c < Prod.snd b) (some hd) x =
        some (if hd.2 < x.2 then x else hd) := by
      simp only [List.argAux]
      split <;> rfl
    rw [List.foldl_cons, hstep]
    exact ih _

/-- `selectBest hd tl` is the first-seen maximum of `hd :: tl` in the sense
of `List.argmax Prod.snd`. -/
theorem argmax_eq_selectBest (hd : BettingOpportunity × ℚ)
    (tl : List (BettingOpportunity × ℚ)) :
    List.argmax Prod.snd (hd :: tl) = some (KairosAnalyzer.selectBest hd tl) := by
  show (hd :: tl).foldl (List.argAux fun b c => Prod.snd c < Prod.snd b) none = _
  rw [List.foldl_cons]
  exact foldl_argAux_eq_selectBest tl hd

/-- The selected pair is one of the candidates. -/
theorem selectBest_mem (hd : BettingOpportunity × ℚ)
    (tl : List (BettingOpportunity × ℚ)) :
    KairosAnalyzer.selectBest hd tl ∈ hd :: tl :=
  List.argmax_mem (by rw [Option.mem_def, argmax_eq_selectBest])

/-- The selected pair has the greatest confidence score. -/
theorem selectBest_le (hd : BettingOpportunity × ℚ)
    (tl : List (BettingOpportunity × ℚ)) :
    ∀ y ∈ hd :: tl, y.2 ≤ (KairosAnalyzer.selectBest hd tl).2 := fun _ hy =>
  List.le_of_mem_argmax hy (by rw [Option.mem_def, argmax_eq_selectBest])

/-- Among candidates tying the maximal score, the selected pair is the
first-seen one. -/
theorem selectBest_first (hd : BettingOpportunity × ℚ)
    (tl : List (BettingOpportunity × ℚ)) :
    ∀ y ∈ hd :: tl, (KairosAnalyzer.selectBest hd tl).2 ≤ y.2 →
      @List.indexOf _ instBEqOfDecidableEq (KairosAnalyzer.selectBest hd tl) (hd :: tl) ≤
        @List.indexOf _ instBEqOfDecidableEq y (hd :: tl) :=
  fun _ hy hle =>
  List.index_of_argmax (by rw [Option.mem_def, argmax_eq_selectBest]) hy hle

/-- A candidate passed through `clearFloor` keeps its `found` mark. -/
theorem clearFloor_found {f s : ℚ} {o : BettingOpportunity}
    {p : BettingOpportunity × ℚ} (ho : o.found = true)
    (h : KairosAnalyzer.clearFloor f s o = some p) : p.1.found = true := by
  unfold KairosAnalyzer.clearFloor at h
  split_ifs at h
  simp only [Option.some.injEq] at h
  exact h ▸ ho

/-- Every candidate produced by the Match-Odds rule is marked found. -/
theorem analyze_match_odds_found {name : String} {data : ParsedMarketData}
    {links : Option String} {p : BettingOpportunity × ℚ}
    (h : KairosAnalyzer.analyze_match_odds name data links = Raises.ok (some p)) :
    p.1.found = true := by
  unfold KairosAnalyzer.analyze_match_odds at h
  split at h
  · exact Raises.noConfusion h
  · simp only [Raises.ok.injEq] at h
    split at h
    · split_ifs at h <;>
        first
          | exact Option.noConfusion h
          | exact clearFloor_found rfl h
    · exact Option.noConfusion h

/-- Every candidate produced by the Over/Under rule is marked found. -/
theorem analyze_over_under_found {name : String} {data : ParsedMarketData}
    {links : Option String} {p : BettingOpportunity × ℚ}
    (h : KairosAnalyzer.analyze_over_under name data links = Raises.ok (some p)) :
    p.1.found = true := by
  unfold KairosAnalyzer.analyze_over_under at h
  split at h
  · exact Raises.noConfusion h
  · simp only [Raises.ok.injEq] at h
    split at h
    · split_ifs at h <;>
        first
          | exact Option.noConfusion h
          | exact clearFloor_found rfl h
    · exact Option.noConfusion h

/-- Every candidate produced by the BTTS rule is marked found. -/
theorem analyze_btts_found {name : String} {data : ParsedMarketData}
    {links : Option String} {p : BettingOpportunity × ℚ}
    (h : KairosAnalyzer.analyze_btts name data links = Raises.ok (some p)) :
    p.1.found = true := by
  unfold KairosAnalyzer.analyze_btts at h
  split at h
  · exact Raises.noConfusion h
  · simp only [Raises.ok.injEq] at h
    split at h
    · split_ifs at h <;>
        first
          | exact Option.noConfusion h
          | exact clearFloor_found rfl h
    · exact Option.noConfusion h

/-- Every candidate produced by the Half rule is marked found. -/
theorem analyze_half_markets_found {name : String} {data : ParsedMarketData}
    {links : Option String} {p : BettingOpportunity × ℚ}
    (h : KairosAnalyzer.analyze_half_markets name data links = Raises.ok (some p)) :
    p.1.found = true := by
  unfold KairosAnalyzer.analyze_half_markets at h
  split at h
  · exact Raises.noConfusion h
  · simp only [Raises.ok.injEq] at h
    split at h
    · split_ifs at h <;>
        first
          | exact Option.noConfusion h
          | exact clearFloor_found rfl h
    · exact Option.noConfusion h

/-- Every per-market candidate is marked found. -/
theorem analyze_single_market_found {m : Market} {p : BettingOpportunity × ℚ}
    (h : KairosAnalyzer.analyze_single_market m = Raises.ok (some p)) :
    p.1.found = true := by
  unfold KairosAnalyzer.analyze_single_market at h
  by_cases h1 : strContains m.market_name "Match Odds" = true
  · rw [if_pos h1] at h
    exact analyze_match_odds_found h
  · rw [if_neg h1] at h
    by_cases h2 : strContains m.market_name "Over/Under" = true
    · rw [if_pos h2] at h
      exact analyze_over_under_found h
    · rw [if_neg h2] at h
      by_cases h3 : strContains m.market_name "Both teams to Score" = true
      · rw [if_pos h3] at h
        exact analyze_btts_found h
      · rw [if_neg h3] at h
        by_cases h4 : strContains m.market_name "Half" = true
        · rw [if_pos h4] at h
          exact analyze_half_markets_found h
        · rw [if_neg h4] at h
          simp at h

/-- Every member of a successfully computed candidate list comes from some
market of the input via `_analyze_single_market`. -/
theorem mem_candidates {ms : List Market} {l : List (BettingOpportunity × ℚ)}
    (h : KairosAnalyzer.candidates ms = Raises.ok l) {p : BettingOpportunity × ℚ}
    (hp : p ∈ l) :
    ∃ m, m ∈ ms ∧ KairosAnalyzer.analyze_single_market m = Raises.ok (some p) := by
  induction ms generalizing l with
  | nil =>
    simp only [KairosAnalyzer.candidates, Raises.ok.injEq] at h
    subst h
    exact absurd hp (List.not_mem_nil p)
  | cons m rest ih =>
    simp only [KairosAnalyzer.candidates] at h
    cases hm : KairosAnalyzer.analyze_single_market m with
    | overflow =>
      rw [hm] at h
      exact Raises.noConfusion h
    | ok o =>
      rw [hm] at h
      cases o with
      | none =>
        obtain ⟨m', hm', h'⟩ := ih h hp
        exact ⟨m', List.mem_cons_of_mem _ hm', h'⟩
      | some q =>
        cases hr : KairosAnalyzer.candidates rest with
        | overflow =>
          rw [hr] at h
          exact Raises.noConfusion h
        | ok lr =>
          rw [hr] at h
          simp only [Raises.ok.injEq] at h
          subst h
          rcases List.mem_cons.mp hp with rfl | hp'
          · exact ⟨m, List.mem_cons_self m rest, hm⟩
          · obtain ⟨m', hm', h'⟩ := ih hr hp'
            exact ⟨m', List.mem_cons_of_mem _ hm', h'⟩

/-- Whenever the deep scorer returns (rather than raises) and reports
`found = false`, the result has the fixed sentinel shape. -/
theorem analyze_markets_not_found_shape (ms : List Market) (o : BettingOpportunity)
    (hok : KairosAnalyzer.analyze_markets ms = Raises.ok o)
    (h : o.found = false) :
    o.market = "N/A" ∧ o.selection = "N/A" ∧ o.confidence_level = "Baixo" ∧
    o.betfair_url = none ∧ o.volume = none ∧ o.odds = none := by
  by_cases hm : ms.isEmpty
  · simp only [KairosAnalyzer.analyze_markets, hm, if_true, Raises.ok.injEq] at hok
    subst hok
    exact ⟨rfl, rfl, rfl, rfl, rfl, rfl⟩
  · cases hc : KairosAnalyzer.candidates ms with
    | overflow =>
      rw [KairosAnalyzer.analyze_markets, if_neg hm, hc] at hok
      exact Raises.noConfusion hok
    | ok l =>
      cases l with
      | nil =>
        rw [KairosAnalyzer.analyze_markets, if_neg hm, hc] at hok
        simp only [Raises.ok.injEq] at hok
        subst hok
        exact ⟨rfl, rfl, rfl, rfl, rfl, rfl⟩
      | cons hd tl =>
        exfalso
        rw [KairosAnalyzer.analyze_markets, if_neg hm, hc] at hok
        simp only [Raises.ok.injEq] at hok
        obtain ⟨mkt, _, heq⟩ := mem_candidates hc (selectBest_mem hd tl)
        have hfound := analyze_single_market_found heq
        rw [hok] at hfound
        rw [h] at hfound
        exact Bool.noConfusion hfound

/-- C8: given an empty market list, the deep scorer `analyze_markets`
(`score_all`) returns the `found=false` sentinel carrying the fixed
no-opportunity justification text, and the preliminary
`analyze_markets_preliminary` (`detect`) returns an empty signal list, for
every threshold configuration; neither raises nor returns an absent result. -/
theorem C8_empty_market_list (cfg : PreConfig) (now : String) :
    KairosAnalyzer.analyze_markets [] = Raises.ok KairosAnalyzer.noDataOpportunity ∧
    KairosAnalyzer.noDataOpportunity.found = false ∧
    KairosAnalyzer.noDataOpportunity.justification =
      "Nenhum dado de mercado disponível para análise." ∧
    PreliminaryAnalyzer.analyze_markets_preliminary cfg now [] = [] :=
  ⟨rfl, rfl, rfl, rfl⟩

/-- C6: for every tier configuration accepted by
`PreliminaryAnalyzer.__init__`, provided the effective minimum volume is
positive and the effective minimum drop percentage is nonzero (which holds
exactly when `min_odds_drop_percent` is nonzero), the derived thresholds are
strictly monotone: `min_volume < high_volume (3×) < very_high_volume (6×)`
and `min_drop_percent < significant_drop (2×) < major_drop (4×)`. -/
theorem C6_threshold_monotonicity (otc : Option TierConfig)
    (hm : 0 < PreliminaryAnalyzer.effMinVolume otc)
    (hd : PreliminaryAnalyzer.effMinDrop otc ≠ 0) :
    (PreliminaryAnalyzer.mkConfig otc).money_way.min_volume <
      (PreliminaryAnalyzer.mkConfig otc).money_way.high_volume ∧
    (PreliminaryAnalyzer.mkConfig otc).money_way.high_volume <
      (PreliminaryAnalyzer.mkConfig otc).money_way.very_high_volume ∧
    (PreliminaryAnalyzer.mkConfig otc).drop_odds.min_drop_percent <
      (PreliminaryAnalyzer.mkConfig otc).drop_odds.significant_drop ∧
    (PreliminaryAnalyzer.mkConfig otc).drop_odds.significant_drop <
      (PreliminaryAnalyzer.mkConfig otc).drop_odds.major_drop := by
  have hd0 : 0 < PreliminaryAnalyzer.effMinDrop otc := by
    rcases otc with _ | tc
    · norm_num [PreliminaryAnalyzer.effMinDrop]
    · have : 0 ≤ PreliminaryAnalyzer.effMinDrop (some tc) := by
        simp only [PreliminaryAnalyzer.effMinDrop]
        positivity
      exact lt_of_le_of_ne this (Ne.symm hd)
  simp only [PreliminaryAnalyzer.mkConfig]
  refine ⟨by linarith, by linarith, by linarith, by linarith⟩

/-- C6 witness: a concrete tier configuration (min volume 8000, minimum odds
drop −5%) satisfies the preconditions and yields strictly monotone
thresholds. -/
theorem C6_threshold_monotonicity_witness :
    (PreliminaryAnalyzer.mkConfig (some ⟨some 8000, some (-0.05)⟩)).money_way.min_volume <
      (PreliminaryAnalyzer.mkConfig (some ⟨some 8000, some (-0.05)⟩)).money_way.high_volume ∧
    (PreliminaryAnalyzer.mkConfig (some ⟨some 8000, some (-0.05)⟩)).money_way.high_volume <
      (PreliminaryAnalyzer.mkConfig (some ⟨some 8000, some (-0.05)⟩)).money_way.very_high_volume ∧
    (PreliminaryAnalyzer.mkConfig (some ⟨some 8000, some (-0.05)⟩)).drop_odds.min_drop_percent <
      (PreliminaryAnalyzer.mkConfig (some ⟨some 8000, some (-0.05)⟩)).drop_odds.significant_drop ∧
    (PreliminaryAnalyzer.mkConfig (some ⟨some 8000, some (-0.05)⟩)).drop_odds.significant_drop <
      (PreliminaryAnalyzer.mkConfig (some ⟨some 8000, some (-0.05)⟩)).drop_odds.major_drop :=
  C6_threshold_monotonicity (some ⟨some 8000, some (-0.05)⟩)
    (by norm_num [PreliminaryAnalyzer.effMinVolume])
    (by norm_num [PreliminaryAnalyzer.effMinDrop])

/-- C4: the tier classifier is a pure function; for every nonempty league
name containing (case-insensitively) some tier1 pattern it returns `tier1`
regardless of tier2 matches (the tier1 list is scanned before tier2);
otherwise `tier2` on a tier2 match; and `tier3` both when nothing matches
and when the league name is empty. -/
theorem C4_tier1_precedence (tiers : LeagueTiers) (name : String) :
    (name ≠ "" →
      tiers.tier1.any (fun p => containsL (lowerL name) (lowerL p)) = true →
      determine_league_tier tiers name = "tier1") ∧
    (name ≠ "" →
      tiers.tier1.any (fun p => containsL (lowerL name) (lowerL p)) = false →
      tiers.tier2.any (fun p => containsL (lowerL name) (lowerL p)) = true →
      determine_league_tier tiers name = "tier2") ∧
    (tiers.tier1.any (fun p => containsL (lowerL name) (lowerL p)) = false →
      tiers.tier2.any (fun p => containsL (lowerL name) (lowerL p)) = false →
      determine_league_tier tiers name = "tier3") ∧
    (name = "" → determine_league_tier tiers name = "tier3") := by
  refine ⟨fun h1 h2 => ?_, fun h1 h2 h3 => ?_, fun h2 h3 => ?_, fun h1 => ?_⟩ <;>
    simp [determine_league_tier, *]

/-- C4 witness: the name "English Premier League" matches the tier1 pattern
list `["premier league"]` and is classified `tier1` even though a tier2
pattern also occurs in it. -/
theorem C4_tier1_precedence_witness :
    determine_league_tier ⟨["premier league"], ["league"]⟩ "English Premier League" =
      "tier1" :=
  (C4_tier1_precedence ⟨["premier league"], ["league"]⟩ "English Premier League").1
    (by decide) (by decide)

/-- C2: for every tier threshold configuration whose effective minimum
volume `m` is positive (as the monotone-threshold invariant requires) and
every market whose volume parses to `v`, the Money-Way detector emits
strength 1.0 iff `v ≥ 6m`, 0.8 iff `3m ≤ v < 6m`, 0.6 iff `m ≤ v < 3m`,
and no signal when `v < m`. -/
theorem C2_money_way_strength (otc : Option TierConfig) (now name : String)
    (data : ParsedMarketData) (v : Int)
    (hm : 0 < PreliminaryAnalyzer.effMinVolume otc)
    (hv : PreliminaryAnalyzer.parse_volume data.volume = some v) :
    (PreliminaryAnalyzer.detect_money_way (PreliminaryAnalyzer.mkConfig otc) now name
        data).map MarketSignal.strength =
      (if PreliminaryAnalyzer.effMinVolume otc * 6 ≤ (v : ℚ) then some 1
       else if PreliminaryAnalyzer.effMinVolume otc * 3 ≤ (v : ℚ) then some 0.8
       else if PreliminaryAnalyzer.effMinVolume otc ≤ (v : ℚ) then some 0.6
       else none) := by
  simp only [PreliminaryAnalyzer.detect_money_way, hv, PreliminaryAnalyzer.mkConfig]
  by_cases h0 : v = 0
  · subst h0
    have h6 : ¬ PreliminaryAnalyzer.effMinVolume otc * 6 ≤ (0 : ℚ) := by nlinarith
    have h3 : ¬ PreliminaryAnalyzer.effMinVolume otc * 3 ≤ (0 : ℚ) := by nlinarith
    have h1 : ¬ PreliminaryAnalyzer.effMinVolume otc ≤ (0 : ℚ) := by nlinarith
    simp [h6, h3, h1]
  · rw [if_neg h0]
    split_ifs <;> rfl

/-- C2 witness: with the default configuration (minimum volume 5000) a
market whose volume parses to 30000 = 6·5000 receives a Money-Way signal of
strength exactly 1. -/
theorem C2_money_way_strength_witness :
    (PreliminaryAnalyzer.detect_money_way (PreliminaryAnalyzer.mkConfig none) "12:00:00"
        "Match Odds" { volume := Val.vStr "30000€" }).map MarketSignal.strength = some 1 := by
  have h := C2_money_way_strength none "12:00:00" "Match Odds"
    { volume := Val.vStr "30000€" } 30000
    (by norm_num [PreliminaryAnalyzer.effMinVolume]) rfl
  rw [h]
  norm_num [PreliminaryAnalyzer.effMinVolume]

/-- C3: a live Match-Odds market with parsed volume 75000 and odds 1.95
yields a candidate with confidence score exactly 0.8
(= 0.3 for volume > 50000, + 0.3 for odds in [1.5, 2.5], + 0.2 for live),
which clears the 0.6 floor, and the candidate's confidence level is "Alto"
and it is marked found. -/
theorem C3_match_odds_example :
    (KairosAnalyzer.analyze_single_market
        { market_name := "Match Odds",
          selections := [⟨"Type", Val.vStr "live"⟩, ⟨"Summ", Val.vStr "75000€"⟩,
            ⟨"Odds", Val.vFloat 1.95⟩] }).map
      (Option.map fun p => (p.2, p.1.confidence_level, p.1.found)) =
      Raises.ok (some (0.8, "Alto", true)) := by
  have hd : KairosAnalyzer.extract_market_data
      [⟨"Type", Val.vStr "live"⟩, ⟨"Summ", Val.vStr "75000€"⟩, ⟨"Odds", Val.vFloat 1.95⟩] =
      { type := Val.vStr "live", volume := Val.vStr "75000€", odds := some 1.95 } := rfl
  have hv : KairosAnalyzer.parse_volume (Val.vStr "75000€") = Raises.ok (some 75000) :=
    parse_volume_digits (Val.vStr "75000€") ['7', '5', '0', '0', '0'] 75000
      (by decide) (by decide) (by decide) (by norm_num [doubleOverflowBound])
  simp only [KairosAnalyzer.analyze_single_market, hd]
  rw [if_pos (by decide : strContains "Match Odds" "Match Odds" = true)]
  simp only [KairosAnalyzer.analyze_match_odds, hv]
  norm_num [Raises.map, KairosAnalyzer.get_confidence_level, KairosAnalyzer.clearFloor]

/-- C7 counterexample: insufficient-data markets are not always skipped
without raising.  On a volume string that `float` reads as infinite
("inf€"), `int(float(...))` raises `OverflowError`, which the
`except (ValueError, TypeError)` handler does not catch: each of the four
rules propagates the exception instead of returning `None`. -/
theorem C7_counterexample :
    KairosAnalyzer.analyze_match_odds "Match Odds"
        { volume := Val.vStr "inf€" } none = Raises.overflow ∧
    KairosAnalyzer.analyze_over_under "Over/Under 2.5 Goals"
        { volume := Val.vStr "inf€" } none = Raises.overflow ∧
    KairosAnalyzer.analyze_btts "Both teams to Score"
        { volume := Val.vStr "inf€" } none = Raises.overflow ∧
    KairosAnalyzer.analyze_half_markets "Half Time"
        { volume := Val.vStr "inf€" } none = Raises.overflow :=
  ⟨rfl, rfl, rfl, rfl⟩

/-- C7 (amended): whenever the volume parse completes without raising and
yields an absent or zero volume, or the odds field is absent (as happens
when odds arrive as a non-numeric string), each of the four rules returns
no candidate; the Half rule additionally returns no candidate whenever a
parsed volume is below 10000.  The unconditional no-raise part of the
original claim fails in the source: on an infinite volume string the parse
raises `OverflowError` before any guard runs. -/
theorem C7_insufficient_data_skip (name : String) (data : ParsedMarketData)
    (links : Option String) :
    (∀ w : Option Int, KairosAnalyzer.parse_volume data.volume = Raises.ok w →
      (w = none ∨ w = some 0 ∨ data.odds = none) →
      KairosAnalyzer.analyze_match_odds name data links = Raises.ok none ∧
      KairosAnalyzer.analyze_over_under name data links = Raises.ok none ∧
      KairosAnalyzer.analyze_btts name data links = Raises.ok none ∧
      KairosAnalyzer.analyze_half_markets name data links = Raises.ok none) ∧
    (∀ v : Int, KairosAnalyzer.parse_volume data.volume = Raises.ok (some v) →
      v < 10000 →
      KairosAnalyzer.analyze_half_markets name data links = Raises.ok none) := by
  constructor
  · intro w hw hcase
    rcases hcase with rfl | rfl | ho
    · refine ⟨?_, ?_, ?_, ?_⟩ <;>
        simp [KairosAnalyzer.analyze_match_odds, KairosAnalyzer.analyze_over_under,
          KairosAnalyzer.analyze_btts, KairosAnalyzer.analyze_half_markets, hw]
    · rcases hodds : data.odds with _ | q <;>
        refine ⟨?_, ?_, ?_, ?_⟩ <;>
          simp [KairosAnalyzer.analyze_match_odds, KairosAnalyzer.analyze_over_under,
            KairosAnalyzer.analyze_btts, KairosAnalyzer.analyze_half_markets, hw, hodds]
    · rcases w with _ | v <;>
        refine ⟨?_, ?_, ?_, ?_⟩ <;>
          simp [KairosAnalyzer.analyze_match_odds, KairosAnalyzer.analyze_over_under,
            KairosAnalyzer.analyze_btts, KairosAnalyzer.analyze_half_markets, hw, ho]
  · intro v hv hlt
    rcases ho : data.odds with _ | q <;>
      simp [KairosAnalyzer.analyze_half_markets, hv, ho, hlt]

/-- C7 witness: a market with an absent volume field (hence a parse that
completes with `None`) and a concrete volume of 500 below the Half gate
produce no candidate from any rule. -/
theorem C7_insufficient_data_skip_witness :
    (KairosAnalyzer.analyze_match_odds "Match Odds" {} none = Raises.ok none ∧
      KairosAnalyzer.analyze_over_under "Over/Under 2.5 Goals" {} none = Raises.ok none ∧
      KairosAnalyzer.analyze_btts "Both teams to Score" {} none = Raises.ok none ∧
      KairosAnalyzer.analyze_half_markets "Half Time" {} none = Raises.ok none) ∧
    KairosAnalyzer.analyze_half_markets "Half Time"
      { volume := Val.vStr "500", odds := some 1.8 } none = Raises.ok none := by
  have h500 : KairosAnalyzer.parse_volume (Val.vStr "500") = Raises.ok (some 500) :=
    parse_volume_digits (Val.vStr "500") ['5', '0', '0'] 500
      (by decide) (by decide) (by decide) (by norm_num [doubleOverflowBound])
  constructor
  · refine ⟨?_, ?_, ?_, ?_⟩
    · exact ((C7_insufficient_data_skip "Match Odds" {} none).1 none rfl (Or.inl rfl)).1
    · exact ((C7_insufficient_data_skip "Over/Under 2.5 Goals" {} none).1 none rfl
        (Or.inl rfl)).2.1
    · exact ((C7_insufficient_data_skip "Both teams to Score" {} none).1 none rfl
        (Or.inl rfl)).2.2.1
    · exact ((C7_insufficient_data_skip "Half Time" {} none).1 none rfl
        (Or.inl rfl)).2.2.2
  · exact (C7_insufficient_data_skip "Half Time"
      { volume := Val.vStr "500", odds := some 1.8 } none).2 500 h500 (by norm_num)

/-- C1 counterexample: `analyze_markets` does not always return a
best-candidate or sentinel object — on a market whose volume string parses
to an infinite float it raises `OverflowError` instead of returning. -/
theorem C1_counterexample :
    KairosAnalyzer.analyze_markets
        [{ market_name := "Match Odds",
           selections := [⟨"Summ", Val.vStr "inf€"⟩] }] = Raises.overflow ∧
    KairosAnalyzer.analyze_markets
        [{ market_name := "Match Odds",
           selections := [⟨"Summ", Val.vStr "inf€"⟩] }] ≠
      Raises.ok KairosAnalyzer.noOpportunityFound :=
  ⟨rfl, fun h => Raises.noConfusion h⟩

/-- C1 (amended): whenever the per-market scoring completes without
raising, `analyze_markets` returns, among all candidates, the one with the
strictly greatest confidence score, breaking exact ties in favour of the
first-seen candidate (the selection operator is the first-seen argmax);
when no market yields a candidate it returns a `found=false` sentinel with
one of the two generic justifications.  In particular, given candidates
scored 0.85 and 0.70, the selection operator returns the 0.85 one.  The
original unconditional form fails on markets whose volume parses to an
infinite float, where the scorer raises instead. -/
theorem C1_best_candidate_selection (markets : List Market) :
    (KairosAnalyzer.candidates markets = Raises.ok [] →
      ∀ o, KairosAnalyzer.analyze_markets markets = Raises.ok o →
        o.found = false ∧
        (o.justification = "Nenhum dado de mercado disponível para análise." ∨
          o.justification =
            "Após análise completa dos mercados disponíveis, não foram identificadas oportunidades claras de valor no momento atual.")) ∧
    (∀ hd tl, KairosAnalyzer.candidates markets = Raises.ok (hd :: tl) →
      KairosAnalyzer.analyze_markets markets =
        Raises.ok (KairosAnalyzer.selectBest hd tl).1) ∧
    (∀ (hd : BettingOpportunity × ℚ) (tl : List (BettingOpportunity × ℚ)),
      KairosAnalyzer.selectBest hd tl ∈ hd :: tl ∧
      (∀ y ∈ hd :: tl, y.2 ≤ (KairosAnalyzer.selectBest hd tl).2) ∧
      (∀ y ∈ hd :: tl, (KairosAnalyzer.selectBest hd tl).2 ≤ y.2 →
        @List.indexOf _ instBEqOfDecidableEq (KairosAnalyzer.selectBest hd tl) (hd :: tl) ≤
          @List.indexOf _ instBEqOfDecidableEq y (hd :: tl))) ∧
    (∀ o₁ o₂ : BettingOpportunity,
      KairosAnalyzer.selectBest (o₁, 0.85) [(o₂, 0.70)] = (o₁, 0.85)) := by
  refine ⟨?_, ?_, ?_, ?_⟩
  · intro h o ho
    by_cases hm : markets.isEmpty
    · rw [KairosAnalyzer.analyze_markets, if_pos hm] at ho
      simp only [Raises.ok.injEq] at ho
      subst ho
      exact ⟨rfl, Or.inl rfl⟩
    · rw [KairosAnalyzer.analyze_markets, if_neg hm, h] at ho
      simp only [Raises.ok.injEq] at ho
      subst ho
      exact ⟨rfl, Or.inr rfl⟩
  · intro hd tl h
    have hm : markets.isEmpty = false := by
      cases markets with
      | nil => exact absurd h (by simp [KairosAnalyzer.candidates])
      | cons a l => rfl
    rw [KairosAnalyzer.analyze_markets, if_neg (by simp [hm]), h]
  · intro hd tl
    exact ⟨selectBest_mem hd tl, selectBest_le hd tl, selectBest_first hd tl⟩
  · intro o₁ o₂
    simp only [KairosAnalyzer.selectBest, List.foldl_cons, List.foldl_nil]
    norm_num

/-- C1 witness: the selection operator picks the 0.85-scored candidate over
the 0.70 one, and on the empty market list the scorer completes and reports
`found=false` with the no-data justification. -/
theorem C1_best_candidate_selection_witness :
    KairosAnalyzer.selectBest
        ({ found := true, market := "A", selection := "sa", justification := "ja",
           confidence_level := "Alto" }, 0.85)
        [({ found := true, market := "B", selection := "sb", justification := "jb",
            confidence_level := "Médio" }, 0.70)] =
      ({ found := true, market := "A", selection := "sa", justification := "ja",
         confidence_level := "Alto" }, 0.85) ∧
    KairosAnalyzer.noDataOpportunity.found = false :=
  ⟨(C1_best_candidate_selection []).2.2.2 _ _,
    ((C1_best_candidate_selection []).1 rfl KairosAnalyzer.noDataOpportunity rfl).1⟩

/-- C9 counterexample: the two-tier entry point does not always return an
opportunity object.  A Match Odds market with a drop percentage of "-25%"
(clearing the major-drop preliminary threshold) and the volume string
"inf€" passes the preliminary tier, is handed to the deep scorer, and the
deep volume parse raises an uncaught `OverflowError`. -/
theorem C9_counterexample :
    KairosAnalyzer.analyze_markets_two_tier "12:00:00"
        [{ market_name := "Match Odds",
           selections := [⟨"Percent", Val.vStr "-25%"⟩, ⟨"Summ", Val.vStr "inf€"⟩] }] =
      Raises.overflow := by
  have hdata : PreliminaryAnalyzer.extract_market_data
      [⟨"Percent", Val.vStr "-25%"⟩, ⟨"Summ", Val.vStr "inf€"⟩] =
      { volume := Val.vStr "inf€", percent := Val.vStr "-25%" } := rfl
  have h25 : digitsToNat ['2', '5'] = 25 := by decide
  have hfb25 : floatBody ['2', '5'] = some (PyFloat.finite 25) := by
    have hlt : ((digitsToNat ['2', '5'] : ℚ)) < doubleOverflowBound := by
      rw [h25, doubleOverflowBound]
      norm_num
    rw [floatBody_digits ['2', '5'] (by decide) (by decide) hlt, h25]
    norm_num
  have hdp : PreliminaryAnalyzer.dropPercentOf (Val.vStr "-25%") =
      some (PyFloat.finite 25) := by
    simp only [PreliminaryAnalyzer.dropPercentOf]
    rw [if_pos (by decide), if_pos (by decide)]
    have hcl : ((("-25%").toList.filter (· ≠ '%')).filter (· ≠ '-')) = ['2', '5'] := by
      decide
    rw [hcl]
    show (floatBody ['2', '5']).map PyFloat.abs = some (PyFloat.finite 25)
    rw [hfb25]
    norm_num [PyFloat.abs]
  have hdrop : PreliminaryAnalyzer.detect_drop_odds (PreliminaryAnalyzer.mkConfig none)
      "12:00:00" "Match Odds" { volume := Val.vStr "inf€", percent := Val.vStr "-25%" } =
      some { signal_type := "drop_odds", strength := 1,
             description := "Queda major nas odds: -" ++ pyFloatRepr (PyFloat.finite 25) ++
               "% (>" ++ ratRepr (PreliminaryAnalyzer.mkConfig none).drop_odds.major_drop ++
               "%)",
             market_name := "Match Odds",
             odds_change := some (PyFloat.finite 25).neg,
             time_detected := some "12:00:00" } := by
    rw [PreliminaryAnalyzer.detect_drop_odds, if_neg (by decide)]
    simp only [hdp]
    rw [if_neg (by norm_num [PyFloat.truthy])]
    rw [if_pos (by norm_num [PyFloat.geQ, PreliminaryAnalyzer.mkConfig,
      PreliminaryAnalyzer.effMinDrop])]
  have hsig : PreliminaryAnalyzer.analyze_markets_preliminary
      (PreliminaryAnalyzer.mkConfig none) "12:00:00"
      [{ market_name := "Match Odds",
         selections := [⟨"Percent", Val.vStr "-25%"⟩, ⟨"Summ", Val.vStr "inf€"⟩] }] =
      [{ signal_type := "drop_odds", strength := 1,
         description := "Queda major nas odds: -" ++ pyFloatRepr (PyFloat.finite 25) ++
           "% (>" ++ ratRepr (PreliminaryAnalyzer.mkConfig none).drop_odds.major_drop ++
           "%)",
         market_name := "Match Odds",
         odds_change := some (PyFloat.finite 25).neg,
         time_detected := some "12:00:00" }] := by
    have hmoney : PreliminaryAnalyzer.detect_money_way (PreliminaryAnalyzer.mkConfig none)
        "12:00:00" "Match Odds"
        { volume := Val.vStr "inf€", percent := Val.vStr "-25%" } = none := rfl
    have hsharp : PreliminaryAnalyzer.detect_sharp_bet (PreliminaryAnalyzer.mkConfig none)
        "12:00:00" "Match Odds"
        { volume := Val.vStr "inf€", percent := Val.vStr "-25%" } = none := rfl
    rw [PreliminaryAnalyzer.analyze_markets_preliminary]
    simp only [List.foldl_cons, List.foldl_nil, List.nil_append,
      PreliminaryAnalyzer.analyze_market_signals, hdata, hmoney, hdrop, hsharp]
    norm_num [List.filterMap_cons, List.filterMap_nil, List.filter_cons, List.filter_nil]
  rw [KairosAnalyzer.analyze_markets_two_tier]
  simp only [hsig]
  rw [if_neg (by simp)]
  have hfil : KairosAnalyzer.filter_markets_with_signals
      [{ market_name := "Match Odds",
         selections := [⟨"Percent", Val.vStr "-25%"⟩, ⟨"Summ", Val.vStr "inf€"⟩] }]
      [{ signal_type := "drop_odds", strength := 1,
         description := "Queda major nas odds: -" ++ pyFloatRepr (PyFloat.finite 25) ++
           "% (>" ++ ratRepr (PreliminaryAnalyzer.mkConfig none).drop_odds.major_drop ++
           "%)",
         market_name := "Match Odds",
         odds_change := some (PyFloat.finite 25).neg,
         time_detected := some "12:00:00" }] =
      [{ market_name := "Match Odds",
         selections := [⟨"Percent", Val.vStr "-25%"⟩, ⟨"Summ", Val.vStr "inf€"⟩] }] := by
    rw [KairosAnalyzer.filter_markets_with_signals]
    refine List.filter_eq_self.mpr ?_
    intro a ha
    rw [List.mem_singleton.mp ha]
    simp
  rw [hfil]
  have hdeep : KairosAnalyzer.analyze_markets
      [{ market_name := "Match Odds",
         selections := [⟨"Percent", Val.vStr "-25%"⟩, ⟨"Summ", Val.vStr "inf€"⟩] }] =
      Raises.overflow := rfl
  rw [hdeep]

/-- C9 (amended): whenever the two-tier pipeline completes without raising
it returns an opportunity object (never an absent value), and every
completed `found=false` result — empty market list, no rule clearing its
floor, or no preliminary signal — has the fixed sentinel shape: market
"N/A", selection "N/A", confidence level "Baixo", and absent url, volume
and odds.  The original always-returns form fails in the source: a market
that passes the preliminary tier but whose volume string parses to an
infinite float makes the deep tier raise an uncaught `OverflowError`. -/
theorem C9_sentinel_shape (now : String) (markets : List Market) :
    (∀ r, KairosAnalyzer.analyze_markets_two_tier now markets = Raises.ok r →
      r.2.isSome = true ∧
      ∀ o, r.2 = some o → o.found = false →
        o.market = "N/A" ∧ o.selection = "N/A" ∧ o.confidence_level = "Baixo" ∧
        o.betfair_url = none ∧ o.volume = none ∧ o.odds = none) ∧
    (∀ o, KairosAnalyzer.analyze_markets markets = Raises.ok o → o.found = false →
      o.market = "N/A" ∧ o.selection = "N/A" ∧ o.confidence_level = "Baixo" ∧
      o.betfair_url = none ∧ o.volume = none ∧ o.odds = none) := by
  constructor
  · intro r hr
    rw [KairosAnalyzer.analyze_markets_two_tier] at hr
    split_ifs at hr
    · simp only [Raises.ok.injEq] at hr
      subst hr
      refine ⟨rfl, ?_⟩
      intro o ho hf
      simp only [Option.some.injEq] at ho
      subst ho
      exact ⟨rfl, rfl, rfl, rfl, rfl, rfl⟩
    · split at hr
      · exact Raises.noConfusion hr
      · simp only [Raises.ok.injEq] at hr
        subst hr
        refine ⟨rfl, ?_⟩
        intro o ho hf
        simp only [Option.some.injEq] at ho
        subst ho
        exact analyze_markets_not_found_shape _ _ (by assumption) hf
  · intro o ho hf
    exact analyze_markets_not_found_shape markets o ho hf

/-- C9 witness: on the empty market list the two-tier entry point completes
and returns an object (the no-signals sentinel) carrying the sentinel
shape, and the deep scorer's own empty-list sentinel carries it as well. -/
theorem C9_sentinel_shape_witness :
    KairosAnalyzer.analyze_markets_two_tier "00:00:00" [] =
      Raises.ok ([], some KairosAnalyzer.noSignalsOpportunity) ∧
    KairosAnalyzer.noSignalsOpportunity.market = "N/A" ∧
    KairosAnalyzer.noSignalsOpportunity.odds = none ∧
    KairosAnalyzer.noDataOpportunity.market = "N/A" :=
  ⟨rfl,
    (((C9_sentinel_shape "00:00:00" []).1 ([], some KairosAnalyzer.noSignalsOpportunity)
        rfl).2 KairosAnalyzer.noSignalsOpportunity rfl rfl).1,
    (((C9_sentinel_shape "00:00:00" []).1 ([], some KairosAnalyzer.noSignalsOpportunity)
        rfl).2 KairosAnalyzer.noSignalsOpportunity rfl rfl).2.2.2.2.2,
    ((C9_sentinel_shape "00:00:00" []).2 KairosAnalyzer.noDataOpportunity rfl rfl).1⟩

/-- C10 counterexample: a selection named "odds change" carrying the
non-numeric value "x" is NOT assigned to the `odds` field as the pure
keyword priority would dictate; the odds branch additionally requires a
numeric value, so the value falls through to the `change` field. -/
theorem C10_counterexample :
    (KairosAnalyzer.extract_market_data [⟨"odds change", Val.vStr "x"⟩]).odds = none ∧
    (KairosAnalyzer.extract_market_data [⟨"odds change", Val.vStr "x"⟩]).change =
      Val.vStr "x" ∧
    (PreliminaryAnalyzer.extract_market_data [⟨"odds change", Val.vStr "x"⟩]).odds =
      none :=
  ⟨rfl, rfl, rfl⟩

/-- C10 (amended): both copies of the extraction function are the same
function, and a single selection is assigned to exactly one field following
the keyword priority type > summ > odds > change > percent > time > score,
with the qualification that the `odds` slot only captures numeric values: a
selection whose name contains "odds" but whose value is non-numeric falls
through to the next matching keyword. -/
theorem C10_extraction_priority :
    (∀ sels, PreliminaryAnalyzer.extract_market_data sels =
      KairosAnalyzer.extract_market_data sels) ∧
    (∀ sel : Selection,
      (containsL (lowerL sel.name) "type".toList = true →
        KairosAnalyzer.extract_step {} sel = { type := sel.odds }) ∧
      (containsL (lowerL sel.name) "type".toList = false →
        containsL (lowerL sel.name) "summ".toList = true →
        KairosAnalyzer.extract_step {} sel = { volume := sel.odds }) ∧
      (containsL (lowerL sel.name) "type".toList = false →
        containsL (lowerL sel.name) "summ".toList = false →
        containsL (lowerL sel.name) "odds".toList = true →
        sel.odds.asNum.isSome = true →
        KairosAnalyzer.extract_step {} sel = { odds := sel.odds.asNum }) ∧
      (containsL (lowerL sel.name) "type".toList = false →
        containsL (lowerL sel.name) "summ".toList = false →
        (containsL (lowerL sel.name) "odds".toList = false ∨ sel.odds.asNum = none) →
        containsL (lowerL sel.name) "change".toList = true →
        KairosAnalyzer.extract_step {} sel = { change := sel.odds }) ∧
      (containsL (lowerL sel.name) "type".toList = false →
        containsL (lowerL sel.name) "summ".toList = false →
        (containsL (lowerL sel.name) "odds".toList = false ∨ sel.odds.asNum = none) →
        containsL (lowerL sel.name) "change".toList = false →
        containsL (lowerL sel.name) "percent".toList = true →
        KairosAnalyzer.extract_step {} sel = { percent := sel.odds }) ∧
      (containsL (lowerL sel.name) "type".toList = false →
        containsL (lowerL sel.name) "summ".toList = false →
        (containsL (lowerL sel.name) "odds".toList = false ∨ sel.odds.asNum = none) →
        containsL (lowerL sel.name) "change".toList = false →
        containsL (lowerL sel.name) "percent".toList = false →
        containsL (lowerL sel.name) "time".toList = true →
        KairosAnalyzer.extract_step {} sel = { time := sel.odds }) ∧
      (containsL (lowerL sel.name) "type".toList = false →
        containsL (lowerL sel.name) "summ".toList = false →
        (containsL (lowerL sel.name) "odds".toList = false ∨ sel.odds.asNum = none) →
        containsL (lowerL sel.name) "change".toList = false →
        containsL (lowerL sel.name) "percent".toList = false →
        containsL (lowerL sel.name) "time".toList = false →
        containsL (lowerL sel.name) "score".toList = true →
        KairosAnalyzer.extract_step {} sel = { score := sel.odds }) ∧
      (containsL (lowerL sel.name) "type".toList = false →
        containsL (lowerL sel.name) "summ".toList = false →
        (containsL (lowerL sel.name) "odds".toList = false ∨ sel.odds.asNum = none) →
        containsL (lowerL sel.name) "change".toList = false →
        containsL (lowerL sel.name) "percent".toList = false →
        containsL (lowerL sel.name) "time".toList = false →
        containsL (lowerL sel.name) "score".toList = false →
        KairosAnalyzer.extract_step {} sel = {})) := by
  constructor
  · intro sels
    rfl
  · intro sel
    refine ⟨fun h1 => ?_, fun h1 h2 => ?_, fun h1 h2 h3 h4 => ?_,
      fun h1 h2 h3 h4 => ?_, fun h1 h2 h3 h4 h5 => ?_,
      fun h1 h2 h3 h4 h5 h6 => ?_, fun h1 h2 h3 h4 h5 h6 h7 => ?_,
      fun h1 h2 h3 h4 h5 h6 h7 => ?_⟩ <;>
      (try rcases h3 with h3 | h3) <;> simp_all [KairosAnalyzer.extract_step]

/-- C10 witness: a selection named "Type Summ" (containing both the "type"
and "summ" keywords) sets only the `type` field, and the two extraction
copies agree on a concrete selection list. -/
theorem C10_extraction_priority_witness :
    KairosAnalyzer.extract_step {} ⟨"Type Summ", Val.vStr "live"⟩ =
      { type := Val.vStr "live" } ∧
    PreliminaryAnalyzer.extract_market_data [⟨"Summ", Val.vStr "10€"⟩] =
      KairosAnalyzer.extract_market_data [⟨"Summ", Val.vStr "10€"⟩] :=
  ⟨(C10_extraction_priority.2 ⟨"Type Summ", Val.vStr "live"⟩).1 (by decide),
    C10_extraction_priority.1 [⟨"Summ", Val.vStr "10€"⟩]⟩

end Kairos
